import Mathlib

/-!
Shallow embedding of the Smart Library System book service.

The model follows src/server/routes/bookRoutes.js (the five Express route
handlers) and the Mongoose schema in the Book model file: title, author and
isbn are required strings with the trim setter, isbn carries a unique index,
publicationDate is required, and timestamps are managed automatically.

Modelling decisions, each tied to a source construct:
  - a request body field is an optional string; the guard
    `!title || !author || !isbn || !publicationDate` is JS truthiness, which
    for strings is falsy exactly on a missing field or the empty string;
  - the Mongoose trim setter is String.trim, applied on assignment, so the
    required validator sees the trimmed value; publicationDate is kept as
    opaque text (date parsing is outside every claim);
  - `findOne with an isbn filter` is exact match on the raw filter value;
    the unique index on isbn is checked on insert and on save against the
    trimmed stored values, and a violation surfaces as the duplicate-key
    error (code 11000) which only the create route maps to a 400 response;
  - a route id parameter is either castable to an ObjectId (wellFormed,
    carrying the id) or not (malformed); findById on a malformed id rejects
    with a CastError, which each route catch maps to its generic 500 reply;
  - MongoDB object ids are modelled by a counter, and the createdAt and
    updatedAt timestamps by a logical clock that advances on every write.
-/

/-- A persisted Book document: schema fields plus id and timestamps. -/
structure Book where
  id : Nat
  title : String
  author : String
  isbn : String
  publicationDate : String
  createdAt : Nat
  updatedAt : Nat
  deriving DecidableEq

/-- The book collection together with the id counter and logical clock. -/
structure Store where
  books : List Book
  nextId : Nat
  clock : Nat
  deriving DecidableEq

def emptyStore : Store := ⟨[], 0, 0⟩

/-- A request body for create and update: four optional text fields. -/
structure BookInput where
  title : Option String
  author : Option String
  isbn : Option String
  publicationDate : Option String
  deriving DecidableEq

/-- JS truthiness of an optional string field: falsy when missing or empty. -/
def truthy : Option String → Bool
  | none => false
  | some s => s ≠ ""

/-- The response payload: a single Book or a list of Books under `data`. -/
inductive Payload where
  | book (b : Book)
  | books (l : List Book)
  deriving DecidableEq

/-- The uniform response envelope produced by every route handler. -/
structure Response where
  status : Nat
  success : Bool
  message : Option String
  data : Option Payload
  count : Option Nat
  deriving DecidableEq

def routeMissingMsg : String :=
  "Please provide all required fields: title, author, ISBN, and publication date"

def dupIsbnMsg : String := "A book with this ISBN already exists"

def notFoundMsg : String := "Book not found"

def addOkMsg : String := "Book added successfully"

def updateOkMsg : String := "Book updated successfully"

def deleteOkMsg : String := "Book deleted successfully"

def getFailMsg : String := "Failed to retrieve book. Please try again later."

def addFailMsg : String := "Failed to add book. Please try again later."

def deleteFailMsg : String := "Failed to delete book. Please try again later."

def updateFailMsg : String := "Failed to update book. Please try again later."

/-- The route-level required-fields guard, the positive form of the
early-return check on the four destructured body fields. -/
def requiredOk (inp : BookInput) : Bool :=
  truthy inp.title && truthy inp.author && truthy inp.isbn &&
    truthy inp.publicationDate

/-- The findOne query with an isbn filter: first document matching exactly. -/
def findOne (s : Store) (isbn : String) : Option Book :=
  s.books.find? (fun b => b.isbn == isbn)

/-- A route id parameter: either castable to an ObjectId or malformed. -/
inductive IdParam where
  | wellFormed (n : Nat)
  | malformed (s : String)
  deriving DecidableEq

/-- The JS string trim: leading and trailing whitespace removed, the
behaviour of the Mongoose trim setter. -/
def jsTrim (s : String) : String :=
  ⟨((s.data.dropWhile Char.isWhitespace).reverse.dropWhile
      Char.isWhitespace).reverse⟩

/-- The document fields after the schema setters ran: the trim setter on
title, author and isbn; publicationDate is stored as given. -/
structure BookDoc where
  title : String
  author : String
  isbn : String
  publicationDate : String
  deriving DecidableEq

def applySetters (title author isbn publicationDate : String) : BookDoc :=
  ⟨jsTrim title, jsTrim author, jsTrim isbn, publicationDate⟩

/-- The per-field messages of the schema required validators, gathered for
every field whose (post-setter) value is absent. -/
def bookValidationErrors (d : BookDoc) : List String :=
  (if d.title = "" then ["Book title is required"] else []) ++
  (if d.author = "" then ["Author name is required"] else []) ++
  (if d.isbn = "" then ["ISBN number is required"] else []) ++
  (if d.publicationDate = "" then ["Publication date is required"] else [])

/-- A failure of Book.create or save: schema validation or the duplicate-key
error raised by the unique isbn index. -/
inductive CreateErr where
  | validation (msgs : List String)
  | dupKey
  deriving DecidableEq

/-- Book.create: runs the schema validators, then inserts subject to the
unique isbn index; timestamps come from the clock, the id from the counter. -/
def bookCreate (s : Store) (d : BookDoc) : Except CreateErr (Book × Store) :=
  let errs := bookValidationErrors d
  if errs.isEmpty then
    if s.books.any (fun b => b.isbn == d.isbn) then .error .dupKey
    else
      let b : Book :=
        ⟨s.nextId, d.title, d.author, d.isbn, d.publicationDate, s.clock, s.clock⟩
      .ok (b, ⟨s.books ++ [b], s.nextId + 1, s.clock + 1⟩)
  else .error (.validation errs)

/-- GET on the collection: fetch all books sorted by createdAt descending. -/
def createdDesc (a c : Book) : Prop := c.createdAt ≤ a.createdAt

instance : DecidableRel createdDesc := fun a c => Nat.decLe c.createdAt a.createdAt

instance : IsTotal Book createdDesc :=
  ⟨fun a c => Nat.le_total c.createdAt a.createdAt⟩

instance : IsTrans Book createdDesc :=
  ⟨fun _ _ _ h₁ h₂ => Nat.le_trans h₂ h₁⟩

def sortByCreatedAtDesc (l : List Book) : List Book :=
  List.insertionSort createdDesc l

/-- GET on the collection: 200 with the sorted books and their count. -/
def doList (s : Store) : Response :=
  let books := sortByCreatedAtDesc s.books
  ⟨200, true, none, some (.books books), some books.length⟩

/-- GET on a single id: 500 when the id cast rejects, 404 when no document
matches, otherwise 200 with the book. -/
def doGetById (s : Store) (i : IdParam) : Response :=
  match i with
  | .malformed _ => ⟨500, false, some getFailMsg, none, none⟩
  | .wellFormed n =>
    match s.books.find? (fun b => b.id == n) with
    | none => ⟨404, false, some notFoundMsg, none, none⟩
    | some b => ⟨200, true, none, some (.book b), none⟩

/-- POST: required-fields guard, explicit duplicate-isbn lookup, then
Book.create; schema validation failures and the duplicate-key error both map
to 400 as in the create route catch block. -/
def doCreate (s : Store) (inp : BookInput) : Response × Store :=
  if requiredOk inp then
    let title := inp.title.getD ""
    let author := inp.author.getD ""
    let isbn := inp.isbn.getD ""
    let publicationDate := inp.publicationDate.getD ""
    match findOne s isbn with
    | some _ => (⟨400, false, some dupIsbnMsg, none, none⟩, s)
    | none =>
      match bookCreate s (applySetters title author isbn publicationDate) with
      | .ok (b, s') => (⟨201, true, some addOkMsg, some (.book b), none⟩, s')
      | .error (.validation msgs) =>
        (⟨400, false, some (String.intercalate ", " msgs), none, none⟩, s)
      | .error .dupKey => (⟨400, false, some dupIsbnMsg, none, none⟩, s)
  else (⟨400, false, some routeMissingMsg, none, none⟩, s)

/-- DELETE: findById (rejecting malformed ids with the generic 500), 404
when absent, otherwise findByIdAndDelete removes the matched document. -/
def doDelete (s : Store) (i : IdParam) : Response × Store :=
  match i with
  | .malformed _ => (⟨500, false, some deleteFailMsg, none, none⟩, s)
  | .wellFormed n =>
    match s.books.find? (fun b => b.id == n) with
    | none => (⟨404, false, some notFoundMsg, none, none⟩, s)
    | some _ =>
      (⟨200, true, some deleteOkMsg, none, none⟩,
       ⟨s.books.eraseP (fun b => b.id == n), s.nextId, s.clock⟩)

/-- The save call of the update route: setters already ran into d; the
schema validators and the unique isbn index are checked, and any failure is
caught by the update route catch as the generic 500 reply. On success the
document is stored with a refreshed updatedAt. -/
def saveBook (s : Store) (b : Book) (d : BookDoc) : Response × Store :=
  if (bookValidationErrors d).isEmpty then
    if s.books.any (fun c => c.isbn == d.isbn && c.id != b.id) then
      (⟨500, false, some updateFailMsg, none, none⟩, s)
    else
      let b' : Book :=
        { b with title := d.title, author := d.author, isbn := d.isbn,
                 publicationDate := d.publicationDate, updatedAt := s.clock }
      (⟨200, true, some updateOkMsg, some (.book b'), none⟩,
       ⟨s.books.map (fun c => if c.id == b.id then b' else c), s.nextId,
        s.clock + 1⟩)
  else (⟨500, false, some updateFailMsg, none, none⟩, s)

/-- PUT: required-fields guard, findById (malformed ids reject into the
generic 500), 404 when absent, duplicate-isbn lookup only when the submitted
isbn differs from the stored one, then field assignment and save. -/
def doUpdate (s : Store) (i : IdParam) (inp : BookInput) : Response × Store :=
  if requiredOk inp then
    match i with
    | .malformed _ => (⟨500, false, some updateFailMsg, none, none⟩, s)
    | .wellFormed n =>
      match s.books.find? (fun b => b.id == n) with
      | none => (⟨404, false, some notFoundMsg, none, none⟩, s)
      | some b =>
        let isbn := inp.isbn.getD ""
        let d := applySetters (inp.title.getD "") (inp.author.getD "") isbn
          (inp.publicationDate.getD "")
        if isbn == b.isbn then saveBook s b d
        else
          match findOne s isbn with
          | some _ => (⟨400, false, some dupIsbnMsg, none, none⟩, s)
          | none => saveBook s b d
  else (⟨400, false, some routeMissingMsg, none, none⟩, s)

/-- Store states reachable from the empty store by the three writers. -/
inductive Reachable : Store → Prop where
  | init : Reachable emptyStore
  | step_create (s : Store) (inp : BookInput) :
      Reachable s → Reachable (doCreate s inp).2
  | step_update (s : Store) (i : IdParam) (inp : BookInput) :
      Reachable s → Reachable (doUpdate s i inp).2
  | step_delete (s : Store) (i : IdParam) :
      Reachable s → Reachable (doDelete s i).2

/-- Structural well-formedness of a store: ids are below the counter and
pairwise distinct, and isbns are pairwise distinct. -/
structure StoreWF (s : Store) : Prop where
  ids_lt : ∀ b ∈ s.books, b.id < s.nextId
  ids_nodup : (s.books.map Book.id).Nodup
  isbn_nodup : (s.books.map Book.isbn).Nodup

/-- Concrete scenario: the Dune create request of the spec example. -/
def inpA : BookInput :=
  ⟨some "Dune", some "Herbert", some "978-0-441-17271-9", some "1965-08-01"⟩

/-- Concrete scenario: a second create request with a distinct isbn. -/
def inpB : BookInput := ⟨some "Emma", some "Austen", some "1111", some "1815-12-23"⟩

/-- The store after creating the Dune book in the empty store. -/
def s1 : Store := (doCreate emptyStore inpA).2

/-- The store after creating the second book in s1. -/
def s2 : Store := (doCreate s1 inpB).2

/-- The persisted Dune book of the scenario. -/
def bookA : Book := ⟨0, "Dune", "Herbert", "978-0-441-17271-9", "1965-08-01", 0, 0⟩

/-- The second persisted book of the scenario. -/
def bookB : Book := ⟨1, "Emma", "Austen", "1111", "1815-12-23", 1, 1⟩

/-! Helper lemmas about the embedding. -/

theorem jsTrim_empty : jsTrim "" = "" := rfl

theorem raw_ne_empty_of_trim {t : String} (h : jsTrim t ≠ "") : t ≠ "" :=
  fun he => h (he ▸ jsTrim_empty)

theorem truthy_some {t : String} (h : t ≠ "") : truthy (some t) = true := by
  simp [truthy, h]

theorem requiredOk_true {inp : BookInput} {t a i p : String}
    (ht : inp.title = some t) (ha : inp.author = some a)
    (hi : inp.isbn = some i) (hp : inp.publicationDate = some p)
    (h1 : t ≠ "") (h2 : a ≠ "") (h3 : i ≠ "") (h4 : p ≠ "") :
    requiredOk inp = true := by
  simp [requiredOk, ht, ha, hi, hp, truthy, h1, h2, h3, h4]

theorem validationErrors_nil {d : BookDoc}
    (h1 : d.title ≠ "") (h2 : d.author ≠ "") (h3 : d.isbn ≠ "")
    (h4 : d.publicationDate ≠ "") : bookValidationErrors d = [] := by
  simp [bookValidationErrors, h1, h2, h3, h4]

theorem find?_id_eq_self {l : List Book} {b : Book} (hb : b ∈ l)
    (hn : (l.map Book.id).Nodup) :
    l.find? (fun c => c.id == b.id) = some b := by
  induction l with
  | nil => cases hb
  | cons a t ih =>
    rcases List.mem_cons.mp hb with rfl | hbt
    · simp [List.find?]
    · have hn' : (∀ x ∈ t, ¬x.id = a.id) ∧ (t.map Book.id).Nodup := by
        simpa using hn
      have hane : (a.id == b.id) = false := by
        simp only [beq_eq_false_iff_ne, ne_eq]
        intro hid
        exact hn'.1 b hbt hid.symm
      simp only [List.find?, hane]
      exact ih hbt hn'.2

theorem find?_id_eraseP {l : List Book} {n : Nat}
    (hn : (l.map Book.id).Nodup) :
    (l.eraseP (fun c => c.id == n)).find? (fun c => c.id == n) = none := by
  induction l with
  | nil => rfl
  | cons a t ih =>
    have hn' : (∀ x ∈ t, ¬x.id = a.id) ∧ (t.map Book.id).Nodup := by
      simpa using hn
    by_cases h : a.id = n
    · rw [List.eraseP_cons_of_pos (by simp [h])]
      apply List.find?_eq_none.mpr
      intro x hx hpx
      have hxn : x.id = n := by simpa using hpx
      exact hn'.1 x hx (by rw [hxn, h])
    · rw [List.eraseP_cons_of_neg (by simp [h])]
      simp only [List.find?, show (a.id == n) = false by simp [h]]
      exact ih hn'.2


theorem bookCreate_ok {s s' : Store} {d : BookDoc} {b : Book}
    (heq : bookCreate s d = .ok (b, s')) :
    bookValidationErrors d = [] ∧
    s.books.any (fun c => c.isbn == d.isbn) = false ∧
    b = ⟨s.nextId, d.title, d.author, d.isbn, d.publicationDate, s.clock,
      s.clock⟩ ∧
    s' = ⟨s.books ++ [b], s.nextId + 1, s.clock + 1⟩ := by
  simp only [bookCreate] at heq
  split at heq
  · split at heq
    · simp at heq
    · rename_i hnil hany
      injection heq with h
      injection h with hb hs
      refine ⟨List.isEmpty_iff.mp hnil, by simpa using hany, hb.symm, ?_⟩
      rw [← hs, hb]
  · simp at heq

theorem wf_append_book {s : Store} {b : Book} (h : StoreWF s)
    (hid : b.id = s.nextId)
    (hisbn : ∀ c ∈ s.books, c.isbn ≠ b.isbn) :
    StoreWF ⟨s.books ++ [b], s.nextId + 1, s.clock + 1⟩ := by
  constructor
  · intro c hc
    rcases List.mem_append.mp hc with hc | hc
    · exact Nat.lt_succ_of_lt (h.ids_lt c hc)
    · rw [List.mem_singleton.mp hc, hid]; exact Nat.lt_succ_self _
  · rw [List.map_append]
    rw [List.nodup_append]
    refine ⟨h.ids_nodup, List.nodup_singleton _, ?_⟩
    intro x hx hx'
    rcases List.mem_map.mp hx with ⟨c, hc, rfl⟩
    have : c.id = b.id := by simpa using hx'
    exact absurd (this ▸ h.ids_lt c hc) (by rw [hid]; exact Nat.lt_irrefl _)
  · rw [List.map_append]
    rw [List.nodup_append]
    refine ⟨h.isbn_nodup, List.nodup_singleton _, ?_⟩
    intro x hx hx'
    rcases List.mem_map.mp hx with ⟨c, hc, rfl⟩
    have : c.isbn = b.isbn := by simpa using hx'
    exact hisbn c hc this

theorem wf_doCreate {s : Store} (h : StoreWF s) (inp : BookInput) :
    StoreWF (doCreate s inp).2 := by
  simp only [doCreate]
  split
  · split
    · exact h
    · rename_i hfind
      split
      · rename_i b s' heq
        obtain ⟨hnil, hany, hb, hs'⟩ := bookCreate_ok heq
        show StoreWF s'
        rw [hs']
        subst hb
        apply wf_append_book h rfl
        intro c hc
        simp only [List.any_eq_false, beq_iff_eq] at hany
        exact hany c hc
      · exact h
      · exact h
  · exact h

theorem wf_doDelete {s : Store} (h : StoreWF s) (i : IdParam) :
    StoreWF (doDelete s i).2 := by
  simp only [doDelete]
  split
  · exact h
  · split
    · exact h
    · rename_i n _ _
      constructor
      · intro c hc
        exact h.ids_lt c (List.eraseP_sublist _ |>.subset hc)
      · exact (List.Sublist.map Book.id (List.eraseP_sublist _)).nodup h.ids_nodup
      · exact (List.Sublist.map Book.isbn (List.eraseP_sublist _)).nodup h.isbn_nodup

theorem mapReplace_id {l : List Book} {b b' : Book} (hb' : b'.id = b.id) :
    (l.map (fun c => if c.id == b.id then b' else c)).map Book.id =
      l.map Book.id := by
  rw [List.map_map]
  apply List.map_congr_left
  intro c _
  by_cases hc : c.id = b.id
  · simp [Function.comp, hc, hb']
  · simp [Function.comp, hc]

theorem nodup_isbn_mapReplace {l : List Book} {b b' : Book}
    (hid : (l.map Book.id).Nodup) (hisbn : (l.map Book.isbn).Nodup)
    (hguard : ∀ c ∈ l, c.isbn = b'.isbn → c.id = b.id) :
    ((l.map (fun c => if c.id == b.id then b' else c)).map Book.isbn).Nodup := by
  induction l with
  | nil => simp
  | cons a t ih =>
    have hid' : (∀ x ∈ t, ¬x.id = a.id) ∧ (t.map Book.id).Nodup := by
      simpa using hid
    have hisbn' : (∀ x ∈ t, ¬x.isbn = a.isbn) ∧ (t.map Book.isbn).Nodup := by
      simpa using hisbn
    by_cases ha : a.id = b.id
    · have htf : t.map (fun c => if c.id == b.id then b' else c) = t := by
        conv_rhs => rw [← List.map_id t]
        apply List.map_congr_left
        intro c hc
        have : ¬c.id = b.id := fun hcb => hid'.1 c hc (hcb.trans ha.symm)
        simp [this]
      simp only [List.map_cons, ha, beq_self_eq_true, if_pos, htf]
      rw [List.nodup_cons]
      constructor
      · intro hmem
        rcases List.mem_map.mp hmem with ⟨c, hc, hcb⟩
        have hcid := hguard c (List.mem_cons_of_mem a hc) hcb
        exact hid'.1 c hc (hcid.trans ha.symm)
      · exact hisbn'.2
    · have hne : (a.id == b.id) = false := by simp [ha]
      simp only [List.map_cons, hne, Bool.false_eq_true, if_neg, if_false]
      rw [List.nodup_cons]
      constructor
      · intro hmem
        rcases List.mem_map.mp hmem with ⟨x, hx, hxa⟩
        rcases List.mem_map.mp hx with ⟨c, hc, rfl⟩
        by_cases hcb : c.id = b.id
        · have : (if c.id == b.id then b' else c) = b' := by simp [hcb]
          rw [this] at hxa
          exact ha (hguard a (List.mem_cons_self a t) hxa.symm)
        · have : (if c.id == b.id then b' else c) = c := by simp [hcb]
          rw [this] at hxa
          exact hisbn'.1 c hc hxa
      · exact ih hid'.2 hisbn'.2
          (fun c hc hcisbn => hguard c (List.mem_cons_of_mem a hc) hcisbn)

theorem wf_saveBook {s : Store} {b : Book} {d : BookDoc} (h : StoreWF s) :
    StoreWF (saveBook s b d).2 := by
  simp only [saveBook]
  split
  · split
    · exact h
    · rename_i hnil hany
      rw [Bool.not_eq_true] at hany
      simp only [List.any_eq_false, Bool.and_eq_true, beq_iff_eq, bne_iff_ne,
        ne_eq, not_and, not_not] at hany
      constructor
      · intro c hc
        rcases List.mem_map.mp hc with ⟨c0, hc0, rfl⟩
        by_cases hcb : c0.id = b.id
        · simpa [hcb] using hcb ▸ h.ids_lt c0 hc0
        · simpa [hcb] using h.ids_lt c0 hc0
      · have hm := @mapReplace_id s.books b
          ⟨b.id, d.title, d.author, d.isbn, d.publicationDate,
            b.createdAt, s.clock⟩ rfl
        exact hm.symm ▸ h.ids_nodup
      · exact nodup_isbn_mapReplace h.ids_nodup h.isbn_nodup hany
  · exact h

theorem wf_doUpdate {s : Store} (h : StoreWF s) (i : IdParam) (inp : BookInput) :
    StoreWF (doUpdate s i inp).2 := by
  simp only [doUpdate]
  split
  · split
    · exact h
    · split
      · exact h
      · split
        · exact wf_saveBook h
        · split
          · exact h
          · exact wf_saveBook h
  · exact h

theorem wf_emptyStore : StoreWF emptyStore :=
  ⟨fun _ hb => absurd hb (List.not_mem_nil _), List.nodup_nil, List.nodup_nil⟩

theorem reachable_wf {s : Store} (h : Reachable s) : StoreWF s := by
  induction h with
  | init => exact wf_emptyStore
  | step_create s inp _ ih => exact wf_doCreate ih inp
  | step_update s i inp _ ih => exact wf_doUpdate ih i inp
  | step_delete s i _ ih => exact wf_doDelete ih i

/-! Claim theorems. -/

/-- C2: for every create input in which at least one of title, author, isbn
or publicationDate is missing or empty, create fails with the 400 validation
reply whose message names the required fields, and the store is left
unchanged, so no Book record is persisted. -/
theorem create_missing_field_rejected (s : Store) (inp : BookInput)
    (h : inp.title = none ∨ inp.title = some "" ∨ inp.author = none ∨
      inp.author = some "" ∨ inp.isbn = none ∨ inp.isbn = some "" ∨
      inp.publicationDate = none ∨ inp.publicationDate = some "") :
    doCreate s inp = (⟨400, false, some routeMissingMsg, none, none⟩, s) := by
  have hreq : requiredOk inp = false := by
    rcases h with h | h | h | h | h | h | h | h <;>
      simp [requiredOk, truthy, h]
  simp [doCreate, hreq]

/-- C2 witness: a concrete create call with a missing title is rejected with
the validation reply and the empty store is unchanged. -/
theorem create_missing_field_rejected_witness :
    doCreate emptyStore ⟨none, some "A", some "I", some "D"⟩ =
      (⟨400, false, some routeMissingMsg, none, none⟩, emptyStore) :=
  create_missing_field_rejected emptyStore ⟨none, some "A", some "I", some "D"⟩
    (Or.inl rfl)

/-- C3: creating with an isbn already held by a stored Book fails with the
duplicate-isbn 400 reply, the store is unchanged, and in particular the
number of stored Books is unchanged. -/
theorem create_duplicate_isbn_rejected (s : Store) (c : Book)
    (hc : c ∈ s.books) (inp : BookInput) (t a p : String)
    (ht : inp.title = some t) (ha : inp.author = some a)
    (hi : inp.isbn = some c.isbn) (hp : inp.publicationDate = some p)
    (h1 : t ≠ "") (h2 : a ≠ "") (h3 : c.isbn ≠ "") (h4 : p ≠ "") :
    doCreate s inp = (⟨400, false, some dupIsbnMsg, none, none⟩, s) ∧
    (doCreate s inp).2.books.length = s.books.length := by
  have hreq := requiredOk_true ht ha hi hp h1 h2 h3 h4
  have hfind : (s.books.find? (fun b => b.isbn == c.isbn)).isSome := by
    rw [List.find?_isSome]
    exact ⟨c, hc, by simp⟩
  rcases Option.isSome_iff_exists.mp hfind with ⟨b, hb⟩
  have hmain : doCreate s inp = (⟨400, false, some dupIsbnMsg, none, none⟩, s) := by
    simp [doCreate, hreq, hi, findOne, hb]
  exact ⟨hmain, by rw [hmain]⟩

/-- C3 witness: creating the Dune book again in the store that already holds
it is rejected with the duplicate-isbn reply and the store keeps its single
book. -/
theorem create_duplicate_isbn_rejected_witness :
    doCreate s1 inpA = (⟨400, false, some dupIsbnMsg, none, none⟩, s1) ∧
    (doCreate s1 inpA).2.books.length = s1.books.length :=
  create_duplicate_isbn_rejected s1 bookA (by decide) inpA
    "Dune" "Herbert" "1965-08-01" rfl rfl (by decide) rfl
    (by decide) (by decide) (by decide) (by decide)

/-- C6: list always replies 200 with success, its count equals the number of
stored Books, and the returned data is a permutation of the stored Books
sorted by createdAt descending; in the concrete scenario that creates book A
and then book B, list returns [B, A]. -/
theorem list_sorted_desc :
    (∀ s : Store, (doList s).status = 200 ∧ (doList s).success = true ∧
      (doList s).count = some s.books.length ∧
      ∃ l, (doList s).data = some (.books l) ∧ l.Perm s.books ∧
        l.Sorted createdDesc) ∧
    ((doCreate emptyStore inpA).1.data = some (.book bookA) ∧
      (doCreate s1 inpB).1.data = some (.book bookB) ∧
      (doList s2).data = some (.books [bookB, bookA])) := by
  constructor
  · intro s
    refine ⟨rfl, rfl, ?_, sortByCreatedAtDesc s.books, rfl, ?_, ?_⟩
    · simp only [doList, Option.some.injEq]
      exact (List.perm_insertionSort createdDesc s.books).length_eq
    · exact List.perm_insertionSort createdDesc s.books
    · exact List.sorted_insertionSort createdDesc s.books
  · exact ⟨by decide, by decide, by decide⟩

/-- C8 counterexample: on a malformed identifier getById does not take the
NotFound path: it replies with the generic 500 retrieval failure. -/
theorem malformed_id_counterexample :
    (doGetById emptyStore (.malformed "abc")).status = 500 ∧
    (doGetById emptyStore (.malformed "abc")).message = some getFailMsg ∧
    (doGetById emptyStore (.malformed "abc")).status ≠ 404 :=
  ⟨rfl, rfl, by decide⟩

/-- C8 amended: a malformed identifier takes the generic internal-failure
path, not the NotFound path: getById and delete reply 500 with their generic
failure messages (delete leaving the store unchanged), and update, once its
body validation passes, also replies 500 and leaves the store unchanged;
only a well-formed id that matches no Book yields the 404 NotFound reply. -/
theorem malformed_id_generic_failure (s : Store) (str : String)
    (inp : BookInput) (t a i p : String)
    (ht : inp.title = some t) (ha : inp.author = some a)
    (hi : inp.isbn = some i) (hp : inp.publicationDate = some p)
    (h1 : t ≠ "") (h2 : a ≠ "") (h3 : i ≠ "") (h4 : p ≠ "") :
    doGetById s (.malformed str) = ⟨500, false, some getFailMsg, none, none⟩ ∧
    doDelete s (.malformed str) =
      (⟨500, false, some deleteFailMsg, none, none⟩, s) ∧
    doUpdate s (.malformed str) inp =
      (⟨500, false, some updateFailMsg, none, none⟩, s) := by
  refine ⟨rfl, rfl, ?_⟩
  have hreq := requiredOk_true ht ha hi hp h1 h2 h3 h4
  simp [doUpdate, hreq]

/-- C8 amended witness: the generic 500 replies at a concrete malformed id
over the empty store, with a fully valid body for update. -/
theorem malformed_id_generic_failure_witness :
    doGetById emptyStore (.malformed "abc") =
      ⟨500, false, some getFailMsg, none, none⟩ ∧
    doDelete emptyStore (.malformed "abc") =
      (⟨500, false, some deleteFailMsg, none, none⟩, emptyStore) ∧
    doUpdate emptyStore (.malformed "abc") inpA =
      (⟨500, false, some updateFailMsg, none, none⟩, emptyStore) :=
  malformed_id_generic_failure emptyStore "abc" inpA
    "Dune" "Herbert" "978-0-441-17271-9" "1965-08-01" rfl rfl rfl rfl
    (by decide) (by decide) (by decide) (by decide)

/-- C9: isbn uniqueness is an invariant of every reachable store state: the
stored isbns are pairwise distinct, equivalently two stored Books with the
same isbn are the same Book; reachability is closed under create, update and
delete, so every operation preserves the invariant. -/
theorem isbn_unique_invariant (s : Store) (h : Reachable s) :
    (s.books.map Book.isbn).Nodup ∧
    ∀ b₁ ∈ s.books, ∀ b₂ ∈ s.books, b₁.isbn = b₂.isbn → b₁ = b₂ := by
  have hwf := reachable_wf h
  exact ⟨hwf.isbn_nodup, fun b₁ h₁ b₂ h₂ he =>
    List.inj_on_of_nodup_map hwf.isbn_nodup h₁ h₂ he⟩

/-- C9 witness: the invariant holds in the concrete reachable two-book
store. -/
theorem isbn_unique_invariant_witness :
    (s2.books.map Book.isbn).Nodup ∧
    ∀ b₁ ∈ s2.books, ∀ b₂ ∈ s2.books, b₁.isbn = b₂.isbn → b₁ = b₂ :=
  isbn_unique_invariant s2
    (Reachable.step_create s1 inpB
      (Reachable.step_create emptyStore inpA Reachable.init))

/-- C7: deleting an existing Book succeeds with the confirmation message and
no data payload and removes the Book, a subsequent getById on the same id and
a second delete on the same id both reply 404 NotFound, and delete on a
well-formed id matching no Book replies 404 and leaves the store unchanged. -/
theorem delete_semantics (s : Store) (hwf : StoreWF s) :
    (∀ b ∈ s.books,
      doDelete s (.wellFormed b.id) =
        ((⟨200, true, some deleteOkMsg, none, none⟩ : Response),
         ⟨s.books.eraseP (fun c => c.id == b.id), s.nextId, s.clock⟩) ∧
      b ∉ (doDelete s (.wellFormed b.id)).2.books ∧
      doGetById (doDelete s (.wellFormed b.id)).2 (.wellFormed b.id) =
        ⟨404, false, some notFoundMsg, none, none⟩ ∧
      (doDelete (doDelete s (.wellFormed b.id)).2 (.wellFormed b.id)).1 =
        ⟨404, false, some notFoundMsg, none, none⟩) ∧
    (∀ n : Nat, (∀ c ∈ s.books, c.id ≠ n) →
      doDelete s (.wellFormed n) =
        ((⟨404, false, some notFoundMsg, none, none⟩ : Response), s)) := by
  constructor
  · intro b hb
    have hfind := find?_id_eq_self hb hwf.ids_nodup
    have hmain : doDelete s (.wellFormed b.id) =
        ((⟨200, true, some deleteOkMsg, none, none⟩ : Response),
         ⟨s.books.eraseP (fun c => c.id == b.id), s.nextId, s.clock⟩) := by
      simp [doDelete, hfind]
    have herase := @find?_id_eraseP s.books b.id hwf.ids_nodup
    refine ⟨hmain, ?_, ?_, ?_⟩
    · rw [hmain]
      intro hmem
      have := List.find?_eq_none.mp herase b hmem
      simp at this
    · rw [hmain]
      simp [doGetById, herase]
    · rw [hmain]
      simp [doDelete, herase]
  · intro n hn
    have hfind : s.books.find? (fun c => c.id == n) = none := by
      rw [List.find?_eq_none]
      intro c hc
      simp [hn c hc]
    simp [doDelete, hfind]

/-- C7 witness: deleting the single book of the concrete store succeeds and
removes it, the follow-up getById and delete reply 404, and deleting a
never-used id replies 404 and changes nothing. -/
theorem delete_semantics_witness :
    (doDelete s1 (.wellFormed bookA.id) =
      ((⟨200, true, some deleteOkMsg, none, none⟩ : Response),
       ⟨s1.books.eraseP (fun c => c.id == bookA.id), s1.nextId, s1.clock⟩) ∧
     bookA ∉ (doDelete s1 (.wellFormed bookA.id)).2.books ∧
     doGetById (doDelete s1 (.wellFormed bookA.id)).2 (.wellFormed bookA.id) =
       ⟨404, false, some notFoundMsg, none, none⟩ ∧
     (doDelete (doDelete s1 (.wellFormed bookA.id)).2 (.wellFormed bookA.id)).1 =
       ⟨404, false, some notFoundMsg, none, none⟩) ∧
    doDelete s1 (.wellFormed 99) =
      ((⟨404, false, some notFoundMsg, none, none⟩ : Response), s1) :=
  ⟨(delete_semantics s1 ⟨by decide, by decide, by decide⟩).1 bookA (by decide),
   (delete_semantics s1 ⟨by decide, by decide, by decide⟩).2 99 (by decide)⟩

/-- C4: updating an existing Book with a valid body whose isbn differs from
the stored one and is already held by another Book fails with the
duplicate-isbn 400 reply and leaves the store, hence the Book, completely
unmodified; and when the submitted isbn equals the stored isbn no duplicate
check applies, so the call never fails with the duplicate-isbn message. -/
theorem update_duplicate_isbn (s : Store) (hwf : StoreWF s) (b : Book)
    (hb : b ∈ s.books) :
    (∀ (inp : BookInput) (t a i p : String),
      inp.title = some t → inp.author = some a → inp.isbn = some i →
      inp.publicationDate = some p → t ≠ "" → a ≠ "" → i ≠ "" → p ≠ "" →
      i ≠ b.isbn → (∃ c ∈ s.books, c.isbn = i) →
      doUpdate s (.wellFormed b.id) inp =
        ((⟨400, false, some dupIsbnMsg, none, none⟩ : Response), s)) ∧
    (∀ (inp : BookInput) (t a p : String),
      inp.title = some t → inp.author = some a → inp.isbn = some b.isbn →
      inp.publicationDate = some p → t ≠ "" → a ≠ "" → b.isbn ≠ "" → p ≠ "" →
      (doUpdate s (.wellFormed b.id) inp).1.message ≠ some dupIsbnMsg) := by
  have hfind := find?_id_eq_self hb hwf.ids_nodup
  constructor
  · intro inp t a i p ht ha hi hp h1 h2 h3 h4 hne hex
    have hreq := requiredOk_true ht ha hi hp h1 h2 h3 h4
    have hone : (s.books.find? (fun c => c.isbn == i)).isSome := by
      rw [List.find?_isSome]
      rcases hex with ⟨c, hc, hci⟩
      exact ⟨c, hc, by simp [hci]⟩
    rcases Option.isSome_iff_exists.mp hone with ⟨c, hcf⟩
    simp [doUpdate, hreq, hfind, hi, hne, findOne, hcf]
  · intro inp t a p ht ha hi hp h1 h2 h3 h4
    have hreq := requiredOk_true ht ha hi hp h1 h2 h3 h4
    have hpath : doUpdate s (.wellFormed b.id) inp =
        saveBook s b (applySetters t a b.isbn p) := by
      simp [doUpdate, hreq, hfind, ht, ha, hi, hp]
    rw [hpath]
    unfold saveBook
    split
    · split
      · exact fun hcontra => by simp [updateFailMsg, dupIsbnMsg] at hcontra
      · exact fun hcontra => by simp [updateOkMsg, dupIsbnMsg] at hcontra
    · exact fun hcontra => by simp [updateFailMsg, dupIsbnMsg] at hcontra

/-- C4 witness: in the concrete two-book store, updating the Dune book to the
other isbn is rejected with the duplicate-isbn reply and changes nothing,
while updating it keeping its own isbn does not produce the duplicate-isbn
message. -/
theorem update_duplicate_isbn_witness :
    doUpdate s2 (.wellFormed bookA.id) ⟨some "X", some "Y", some "1111", some "Z"⟩ =
      ((⟨400, false, some dupIsbnMsg, none, none⟩ : Response), s2) ∧
    (doUpdate s2 (.wellFormed bookA.id) inpA).1.message ≠ some dupIsbnMsg :=
  ⟨(update_duplicate_isbn s2 ⟨by decide, by decide, by decide⟩ bookA
      (by decide)).1 ⟨some "X", some "Y", some "1111", some "Z"⟩
      "X" "Y" "1111" "Z" rfl rfl rfl rfl (by decide) (by decide) (by decide)
      (by decide) (by decide) ⟨bookB, by decide, by decide⟩,
   (update_duplicate_isbn s2 ⟨by decide, by decide, by decide⟩ bookA
      (by decide)).2 inpA "Dune" "Herbert" "1965-08-01" rfl rfl rfl rfl
      (by decide) (by decide) (by decide) (by decide)⟩

theorem doCreate_preserves_books (s : Store) (inp : BookInput) :
    ∀ c ∈ s.books, c ∈ (doCreate s inp).2.books := by
  intro c hc
  simp only [doCreate]
  split
  · split
    · exact hc
    · split
      · rename_i b s' heq
        obtain ⟨_, _, _, hs'⟩ := bookCreate_ok heq
        show c ∈ s'.books
        rw [hs']
        exact List.mem_append_left _ hc
      · exact hc
      · exact hc
  · exact hc

theorem doDelete_books_subset (s : Store) (i : IdParam) :
    ∀ c ∈ (doDelete s i).2.books, c ∈ s.books := by
  intro c hc
  simp only [doDelete] at hc
  split at hc
  · exact hc
  · split at hc
    · exact hc
    · exact (List.eraseP_sublist _).subset hc

theorem saveBook_preserves_id_createdAt (s : Store) (b : Book) (d : BookDoc)
    (hb : b ∈ s.books) :
    ∀ c ∈ (saveBook s b d).2.books,
      ∃ c0 ∈ s.books, c.id = c0.id ∧ c.createdAt = c0.createdAt := by
  intro c hc
  simp only [saveBook] at hc
  split at hc
  · split at hc
    · exact ⟨c, hc, rfl, rfl⟩
    · rcases List.mem_map.mp hc with ⟨c0, hc0, rfl⟩
      by_cases hcb : c0.id = b.id
      · refine ⟨b, hb, ?_, ?_⟩ <;> simp [hcb]
      · refine ⟨c0, hc0, ?_, ?_⟩ <;> simp [hcb]
  · exact ⟨c, hc, rfl, rfl⟩

theorem doUpdate_preserves_id_createdAt (s : Store) (i : IdParam)
    (inp : BookInput) :
    ∀ c ∈ (doUpdate s i inp).2.books,
      ∃ c0 ∈ s.books, c.id = c0.id ∧ c.createdAt = c0.createdAt := by
  intro c hc
  simp only [doUpdate] at hc
  split at hc
  · split at hc
    · exact ⟨c, hc, rfl, rfl⟩
    · split at hc
      · exact ⟨c, hc, rfl, rfl⟩
      · rename_i b hfind
        have hb := List.mem_of_find?_eq_some hfind
        split at hc
        · exact saveBook_preserves_id_createdAt s b _ hb c hc
        · split at hc
          · exact ⟨c, hc, rfl, rfl⟩
          · exact saveBook_preserves_id_createdAt s b _ hb c hc
  · exact ⟨c, hc, rfl, rfl⟩

/-- C5: updating an existing Book with a valid body that does not collide on
isbn succeeds: it replaces exactly title, author, isbn (each stored trimmed)
and publicationDate, refreshes updatedAt from the clock, keeps the identifier
and createdAt, returns the updated Book, stores it, and leaves every other
Book in place; moreover no operation ever mutates the identifier or
createdAt of a stored Book: create keeps all previous Books, delete only
removes Books, and every Book after an update shares its identifier and
createdAt with a Book stored before it. -/
theorem update_replaces_fields (s : Store) (hwf : StoreWF s) (b : Book)
    (hb : b ∈ s.books) (inp : BookInput) (t a i p : String)
    (ht : inp.title = some t) (ha : inp.author = some a)
    (hi : inp.isbn = some i) (hp : inp.publicationDate = some p)
    (h1 : jsTrim t ≠ "") (h2 : jsTrim a ≠ "") (h3 : jsTrim i ≠ "")
    (h4 : p ≠ "") (hitrim : jsTrim i = i)
    (hcol : i = b.isbn ∨ ∀ c ∈ s.books, c.isbn ≠ i) :
    (∃ b' : Book,
      doUpdate s (.wellFormed b.id) inp =
        ((⟨200, true, some updateOkMsg, some (.book b'), none⟩ : Response),
         ⟨s.books.map (fun c => if c.id == b.id then b' else c), s.nextId,
          s.clock + 1⟩) ∧
      b'.id = b.id ∧ b'.createdAt = b.createdAt ∧ b'.title = jsTrim t ∧
      b'.author = jsTrim a ∧ b'.isbn = jsTrim i ∧ b'.publicationDate = p ∧
      b'.updatedAt = s.clock ∧
      b' ∈ (doUpdate s (.wellFormed b.id) inp).2.books ∧
      ∀ c ∈ s.books, c.id ≠ b.id →
        c ∈ (doUpdate s (.wellFormed b.id) inp).2.books) ∧
    (∀ (s0 : Store) (inp0 : BookInput), ∀ c ∈ s0.books,
      c ∈ (doCreate s0 inp0).2.books) ∧
    (∀ (s0 : Store) (i0 : IdParam), ∀ c ∈ (doDelete s0 i0).2.books,
      c ∈ s0.books) ∧
    (∀ (s0 : Store) (i0 : IdParam) (inp0 : BookInput),
      ∀ c ∈ (doUpdate s0 i0 inp0).2.books,
        ∃ c0 ∈ s0.books, c.id = c0.id ∧ c.createdAt = c0.createdAt) := by
  have hreq := requiredOk_true ht ha hi hp (raw_ne_empty_of_trim h1)
    (raw_ne_empty_of_trim h2) (raw_ne_empty_of_trim h3) h4
  have hfind := find?_id_eq_self hb hwf.ids_nodup
  have hpath : doUpdate s (.wellFormed b.id) inp =
      saveBook s b (applySetters t a i p) := by
    rcases hcol with hcol | hcol
    · simp [doUpdate, hreq, hfind, ht, ha, hi, hp, hcol]
    · have hne : (i == b.isbn) = false := by
        simp only [beq_eq_false_iff_ne, ne_eq]
        exact fun he => hcol b hb he.symm
      have hnone : s.books.find? (fun c => c.isbn == i) = none := by
        rw [List.find?_eq_none]
        intro c hc
        simp [hcol c hc]
      simp [doUpdate, hreq, hfind, ht, ha, hi, hp, hne, findOne, hnone]
  have hnil : bookValidationErrors (applySetters t a i p) = [] :=
    validationErrors_nil h1 h2 h3 h4
  have hany : s.books.any
      (fun c => c.isbn == (applySetters t a i p).isbn && c.id != b.id) =
        false := by
    rw [List.any_eq_false]
    intro c hcmem
    intro hcontra
    rw [Bool.and_eq_true] at hcontra
    obtain ⟨hc1, hc2⟩ := hcontra
    rw [beq_iff_eq] at hc1
    rw [bne_iff_ne] at hc2
    have hci : c.isbn = i := by
      rw [hc1]
      exact hitrim
    rcases hcol with hcol | hcol
    · exact hc2 (congrArg Book.id
        (List.inj_on_of_nodup_map hwf.isbn_nodup hcmem hb (hci.trans hcol)))
    · exact hcol c hcmem hci
  have hmain : doUpdate s (.wellFormed b.id) inp =
      ((⟨200, true, some updateOkMsg,
        some (.book ⟨b.id, jsTrim t, jsTrim a, jsTrim i, p, b.createdAt,
          s.clock⟩), none⟩ : Response),
       ⟨s.books.map (fun c => if c.id == b.id then
          (⟨b.id, jsTrim t, jsTrim a, jsTrim i, p, b.createdAt,
            s.clock⟩ : Book) else c), s.nextId, s.clock + 1⟩) := by
    rw [hpath]
    simp [saveBook, hnil, hany]
    simp [applySetters]
  refine ⟨⟨⟨b.id, jsTrim t, jsTrim a, jsTrim i, p, b.createdAt, s.clock⟩,
    hmain, rfl, rfl, rfl, rfl, rfl, rfl, rfl, ?_, ?_⟩,
    doCreate_preserves_books, doDelete_books_subset,
    doUpdate_preserves_id_createdAt⟩
  · rw [hmain]
    exact List.mem_map.mpr ⟨b, hb, by simp⟩
  · intro c hc hcid
    rw [hmain]
    exact List.mem_map.mpr ⟨c, hc, by simp [hcid]⟩

/-- C5 witness: a concrete valid update of the stored Dune book keeping its
isbn succeeds, replaces the fields, refreshes updatedAt and keeps id and
createdAt. -/
theorem update_replaces_fields_witness :
    ∃ b' : Book,
      doUpdate s1 (.wellFormed bookA.id)
          ⟨some "Dune2", some "Herbert2", some "978-0-441-17271-9",
            some "2000-01-01"⟩ =
        ((⟨200, true, some updateOkMsg, some (.book b'), none⟩ : Response),
         ⟨s1.books.map (fun c => if c.id == bookA.id then b' else c),
          s1.nextId, s1.clock + 1⟩) ∧
      b'.id = bookA.id ∧ b'.createdAt = bookA.createdAt ∧
      b'.title = jsTrim "Dune2" ∧ b'.author = jsTrim "Herbert2" ∧
      b'.isbn = jsTrim "978-0-441-17271-9" ∧
      b'.publicationDate = "2000-01-01" ∧ b'.updatedAt = s1.clock ∧
      b' ∈ (doUpdate s1 (.wellFormed bookA.id)
          ⟨some "Dune2", some "Herbert2", some "978-0-441-17271-9",
            some "2000-01-01"⟩).2.books ∧
      ∀ c ∈ s1.books, c.id ≠ bookA.id →
        c ∈ (doUpdate s1 (.wellFormed bookA.id)
          ⟨some "Dune2", some "Herbert2", some "978-0-441-17271-9",
            some "2000-01-01"⟩).2.books :=
  (update_replaces_fields s1 ⟨by decide, by decide, by decide⟩ bookA
    (by decide)
    ⟨some "Dune2", some "Herbert2", some "978-0-441-17271-9",
      some "2000-01-01"⟩
    "Dune2" "Herbert2" "978-0-441-17271-9" "2000-01-01" rfl rfl rfl rfl
    (by decide) (by decide) (by decide) (by decide) (by decide)
    (Or.inl (by decide))).1

/-- C1 counterexample: an input whose title carries leading whitespace is
present and non-empty with a fresh isbn, yet create persists the trimmed
title, so the stored Book does not equal the input fields; an isbn with
surrounding whitespace is likewise persisted trimmed; and a whitespace-only
title, also present and non-empty, makes create fail with 400 instead of
succeeding. -/
theorem create_persists_input_counterexample :
    ((doCreate emptyStore
        ⟨some " Dune", some "Herbert", some "978", some "1965-08-01"⟩).1.data =
      some (.book ⟨0, "Dune", "Herbert", "978", "1965-08-01", 0, 0⟩) ∧
      (" Dune" : String) ≠ "Dune") ∧
    ((doCreate emptyStore
        ⟨some "Dune", some "Herbert", some " 978 ", some "1965-08-01"⟩).1.data =
      some (.book ⟨0, "Dune", "Herbert", "978", "1965-08-01", 0, 0⟩) ∧
      (" 978 " : String) ≠ "978") ∧
    (doCreate emptyStore
        ⟨some " ", some "Herbert", some "978", some "1965-08-01"⟩).1.status =
      400 :=
  ⟨⟨by decide, by decide⟩, ⟨by decide, by decide⟩, by decide⟩

/-- C1 amended: for every create input whose four fields are present and
non-empty after trimming, and whose isbn occurs in the store neither as
submitted nor after trimming, create succeeds with 201, persists a new Book
whose title, author and isbn equal the trimmed input fields and whose
publicationDate equals the input field, returns that Book, and a subsequent
getById with the returned identifier returns the same Book. -/
theorem create_valid_fresh (s : Store) (hwf : StoreWF s) (inp : BookInput)
    (t a i p : String)
    (ht : inp.title = some t) (ha : inp.author = some a)
    (hi : inp.isbn = some i) (hp : inp.publicationDate = some p)
    (h1 : jsTrim t ≠ "") (h2 : jsTrim a ≠ "") (h3 : jsTrim i ≠ "")
    (h4 : p ≠ "")
    (hfreshRaw : ∀ c ∈ s.books, c.isbn ≠ i)
    (hfreshTrim : ∀ c ∈ s.books, c.isbn ≠ jsTrim i) :
    ∃ b : Book,
      doCreate s inp =
        ((⟨201, true, some addOkMsg, some (.book b), none⟩ : Response),
         ⟨s.books ++ [b], s.nextId + 1, s.clock + 1⟩) ∧
      b.title = jsTrim t ∧ b.author = jsTrim a ∧ b.isbn = jsTrim i ∧
      b.publicationDate = p ∧ b.id = s.nextId ∧ b.createdAt = s.clock ∧
      b ∈ (doCreate s inp).2.books ∧
      doGetById (doCreate s inp).2 (.wellFormed b.id) =
        ⟨200, true, none, some (.book b), none⟩ := by
  have hreq := requiredOk_true ht ha hi hp (raw_ne_empty_of_trim h1)
    (raw_ne_empty_of_trim h2) (raw_ne_empty_of_trim h3) h4
  have hnone : s.books.find? (fun c => c.isbn == i) = none := by
    rw [List.find?_eq_none]
    intro c hc
    simp [hfreshRaw c hc]
  have hnil : bookValidationErrors (applySetters t a i p) = [] :=
    validationErrors_nil h1 h2 h3 h4
  have hany : s.books.any
      (fun c => c.isbn == (applySetters t a i p).isbn) = false := by
    rw [List.any_eq_false]
    intro c hcmem hcontra
    rw [beq_iff_eq] at hcontra
    exact hfreshTrim c hcmem hcontra
  have hmain : doCreate s inp =
      ((⟨201, true, some addOkMsg, some (.book ⟨s.nextId, jsTrim t, jsTrim a,
          jsTrim i, p, s.clock, s.clock⟩), none⟩ : Response),
       ⟨s.books ++ [⟨s.nextId, jsTrim t, jsTrim a, jsTrim i, p, s.clock,
          s.clock⟩], s.nextId + 1, s.clock + 1⟩) := by
    simp only [doCreate, hreq, if_true, ht, ha, hi, hp, Option.getD_some,
      findOne, hnone]
    simp only [bookCreate, hnil, List.isEmpty_nil, if_true, hany,
      Bool.false_eq_true, if_false]
    simp [applySetters]
  have hfb : ((s.books ++ [(⟨s.nextId, jsTrim t, jsTrim a, jsTrim i, p,
      s.clock, s.clock⟩ : Book)]).find? (fun c => c.id == s.nextId)) =
      some ⟨s.nextId, jsTrim t, jsTrim a, jsTrim i, p, s.clock, s.clock⟩ := by
    rw [List.find?_append]
    have h0 : s.books.find? (fun c => c.id == s.nextId) = none := by
      rw [List.find?_eq_none]
      intro c hc
      simp [Nat.ne_of_lt (hwf.ids_lt c hc)]
    rw [h0]
    simp [List.find?]
  refine ⟨⟨s.nextId, jsTrim t, jsTrim a, jsTrim i, p, s.clock, s.clock⟩,
    hmain, rfl, rfl, rfl, rfl, rfl, rfl, ?_, ?_⟩
  · rw [hmain]
    exact List.mem_append_right _ (List.mem_singleton_self _)
  · rw [hmain]
    simp [doGetById, hfb]

/-- C1 amended witness: the concrete Dune create request on the empty store
succeeds, stores the trimmed fields, and getById on the new identifier
returns the same Book. -/
theorem create_valid_fresh_witness :
    ∃ b : Book,
      doCreate emptyStore inpA =
        ((⟨201, true, some addOkMsg, some (.book b), none⟩ : Response),
         ⟨emptyStore.books ++ [b], emptyStore.nextId + 1,
          emptyStore.clock + 1⟩) ∧
      b.title = jsTrim "Dune" ∧ b.author = jsTrim "Herbert" ∧
      b.isbn = jsTrim "978-0-441-17271-9" ∧ b.publicationDate = "1965-08-01" ∧
      b.id = emptyStore.nextId ∧ b.createdAt = emptyStore.clock ∧
      b ∈ (doCreate emptyStore inpA).2.books ∧
      doGetById (doCreate emptyStore inpA).2 (.wellFormed b.id) =
        ⟨200, true, none, some (.book b), none⟩ :=
  create_valid_fresh emptyStore ⟨by decide, by decide, by decide⟩ inpA
    "Dune" "Herbert" "978-0-441-17271-9" "1965-08-01" rfl rfl rfl rfl
    (by decide) (by decide) (by decide) (by decide) (by decide) (by decide)

theorem saveBook_mem_trimmed {s : Store} {b0 : Book} {d : BookDoc} {b : Book}
    (hb : b ∈ (saveBook s b0 d).2.books) :
    b ∈ s.books ∨
      (b.title = d.title ∧ b.author = d.author ∧ b.isbn = d.isbn) := by
  simp only [saveBook] at hb
  split at hb
  · split at hb
    · exact Or.inl hb
    · rcases List.mem_map.mp hb with ⟨c0, hc0, rfl⟩
      by_cases hcb : c0.id = b0.id
      · right
        refine ⟨?_, ?_, ?_⟩ <;> simp [hcb]
      · left
        simpa [hcb] using hc0
  · exact Or.inl hb

/-- C10: a Book persisted by create or update that was not already stored
carries the submitted title, author and isbn with leading and trailing
whitespace removed (the store trims these text fields on create and update);
consequently a create input whose title, author or isbn is whitespace-only
passes the route presence check but is rejected by the schema required
validators: the reply is 400 with their joined messages and the store is
unchanged. -/
theorem store_trims_text_fields :
    (∀ (s : Store) (inp : BookInput) (b : Book),
      b ∈ (doCreate s inp).2.books → b ∈ s.books ∨
        (b.title = jsTrim (inp.title.getD "") ∧
         b.author = jsTrim (inp.author.getD "") ∧
         b.isbn = jsTrim (inp.isbn.getD ""))) ∧
    (∀ (s : Store) (i : IdParam) (inp : BookInput) (b : Book),
      b ∈ (doUpdate s i inp).2.books → b ∈ s.books ∨
        (b.title = jsTrim (inp.title.getD "") ∧
         b.author = jsTrim (inp.author.getD "") ∧
         b.isbn = jsTrim (inp.isbn.getD ""))) ∧
    (∀ (s : Store) (inp : BookInput) (t a i p : String),
      inp.title = some t → inp.author = some a → inp.isbn = some i →
      inp.publicationDate = some p → t ≠ "" → a ≠ "" → i ≠ "" → p ≠ "" →
      (jsTrim t = "" ∨ jsTrim a = "" ∨ jsTrim i = "") →
      (∀ c ∈ s.books, c.isbn ≠ i) →
      doCreate s inp =
        ((⟨400, false, some (String.intercalate ", "
            (bookValidationErrors (applySetters t a i p))), none, none⟩ :
          Response), s) ∧
      bookValidationErrors (applySetters t a i p) ≠ []) := by
  refine ⟨?_, ?_, ?_⟩
  · intro s inp b hb
    simp only [doCreate] at hb
    split at hb
    · split at hb
      · exact Or.inl hb
      · split at hb
        · rename_i b0 s0 heq
          obtain ⟨_, _, hb0, hs0⟩ := bookCreate_ok heq
          rw [hs0] at hb
          rcases List.mem_append.mp hb with hb | hb
          · exact Or.inl hb
          · right
            rw [List.mem_singleton.mp hb, hb0]
            exact ⟨rfl, rfl, rfl⟩
        · exact Or.inl hb
        · exact Or.inl hb
    · exact Or.inl hb
  · intro s i inp b hb
    simp only [doUpdate] at hb
    split at hb
    · split at hb
      · exact Or.inl hb
      · split at hb
        · exact Or.inl hb
        · split at hb
          · exact saveBook_mem_trimmed hb
          · split at hb
            · exact Or.inl hb
            · exact saveBook_mem_trimmed hb
    · exact Or.inl hb
  · intro s inp t a i p ht ha hi hp h1 h2 h3 h4 hws hfresh
    have hreq := requiredOk_true ht ha hi hp h1 h2 h3 h4
    have hnone : s.books.find? (fun c => c.isbn == i) = none := by
      rw [List.find?_eq_none]
      intro c hc
      simp [hfresh c hc]
    have hne : bookValidationErrors (applySetters t a i p) ≠ [] := by
      rcases hws with hws | hws | hws <;>
        simp [bookValidationErrors, applySetters, hws]
    have hemp : (bookValidationErrors (applySetters t a i p)).isEmpty =
        false := by
      simp [List.isEmpty_iff, hne]
    refine ⟨?_, hne⟩
    simp only [doCreate, hreq, if_true, ht, ha, hi, hp, Option.getD_some,
      findOne, hnone]
    simp only [bookCreate, hemp, Bool.false_eq_true, if_false]

/-- C10 witness: a create input with whitespace around title and author
persists the trimmed texts, and a whitespace-only title create is rejected
by the schema with its required message while the store stays unchanged. -/
theorem store_trims_text_fields_witness :
    ((⟨0, "Dune", "H", "978", "1965", 0, 0⟩ : Book) ∈ emptyStore.books ∨
      ((⟨0, "Dune", "H", "978", "1965", 0, 0⟩ : Book).title =
        jsTrim ((some " Dune ").getD "") ∧
       (⟨0, "Dune", "H", "978", "1965", 0, 0⟩ : Book).author =
        jsTrim ((some " H").getD "") ∧
       (⟨0, "Dune", "H", "978", "1965", 0, 0⟩ : Book).isbn =
        jsTrim ((some "978").getD ""))) ∧
    (doCreate emptyStore ⟨some " ", some "H", some "978", some "1965"⟩ =
      ((⟨400, false, some (String.intercalate ", "
          (bookValidationErrors (applySetters " " "H" "978" "1965"))), none,
        none⟩ : Response), emptyStore) ∧
     bookValidationErrors (applySetters " " "H" "978" "1965") ≠ []) :=
  ⟨store_trims_text_fields.1 emptyStore
      ⟨some " Dune ", some " H", some "978", some "1965"⟩
      ⟨0, "Dune", "H", "978", "1965", 0, 0⟩ (by decide),
   store_trims_text_fields.2.2 emptyStore
      ⟨some " ", some "H", some "978", some "1965"⟩ " " "H" "978" "1965"
      rfl rfl rfl rfl (by decide) (by decide) (by decide) (by decide)
      (Or.inl (by decide)) (by decide)⟩
